import Mathlib

/-!
Verification of the declaration-file resolution, warning generation, and
import/export specifier rewriting of the `dnt` transform library.

The Rust sources embedded here are
`rs-lib/src/declaration_file_resolution.rs`, `rs-lib/src/lib.rs` and
`rs-lib/src/visitors/imports_exports.rs`.  External collaborators
(the module graph, the output-path mapper, the token stream of the
parsed syntax tree) appear as parameters of the embedded functions,
exactly as they appear as `&ModuleGraph`, `&Mappings`, `&Program`
arguments in the source.
-/

namespace Dnt

/-- Model of `deno_ast::ModuleSpecifier` (a URL): a scheme plus the rest of
the serialized URL.  `scheme` models `Url::scheme()`; ordering and equality
are lexicographic on the serialization, modelled as `(scheme, path)`. -/
structure ModuleSpecifier where
  scheme : String
  path : String
deriving DecidableEq, Repr

/-- Serialization of a specifier, used by `Display` in warning messages. -/
def spec_str (m : ModuleSpecifier) : String :=
  m.scheme ++ "://" ++ m.path

/-- Sort key realizing the total (lexicographic) order on URLs. -/
def ModuleSpecifier.toKey (m : ModuleSpecifier) : Lex (String × String) :=
  toLex (m.scheme, m.path)

instance : LinearOrder ModuleSpecifier :=
  LinearOrder.lift' ModuleSpecifier.toKey (by
    intro a b h
    cases a; cases b
    simp only [ModuleSpecifier.toKey, toLex_inj, Prod.mk.injEq] at h
    simp [h.1, h.2])

/-- Model of `TypesDependency` from `declaration_file_resolution.rs`:
the candidate declaration file (`specifier`) and the module that named
it (`referrer`).  Rust derives `Ord` field-by-field in declaration
order, i.e. lexicographically on `(specifier, referrer)`. -/
structure TypesDependency where
  specifier : ModuleSpecifier
  referrer : ModuleSpecifier
deriving DecidableEq, Repr

/-- Sort key for the derived `Ord` on `TypesDependency`. -/
def TypesDependency.toKey (d : TypesDependency) :
    Lex (ModuleSpecifier × ModuleSpecifier) :=
  toLex (d.specifier, d.referrer)

instance : LinearOrder TypesDependency :=
  LinearOrder.lift' TypesDependency.toKey (by
    intro a b h
    cases a; cases b
    simp only [TypesDependency.toKey, toLex_inj, Prod.mk.injEq] at h
    simp [h.1, h.2])

/-- Model of `DeclarationFileResolution`. -/
structure DeclarationFileResolution where
  selected : TypesDependency
  ignored : List TypesDependency
deriving DecidableEq, Repr

/-- Model of the external `ModuleGraph` interface as used by
`select_best_types_dep`: `get(specifier).source` is the module's source
text. -/
structure ModuleGraph where
  source : ModuleSpecifier → String

/-- Byte length of a module's source text: `module_graph.get(s).source.len()`
(Rust `String::len` counts UTF-8 bytes). -/
def source_len (g : ModuleGraph) (s : ModuleSpecifier) : Nat :=
  (g.source s).utf8ByteSize

/-- The replacement test of the selection loop in `select_best_types_dep`
(body of `should_replace` in the source, lines 76–99). -/
def should_replace (g : ModuleGraph) (code_specifier : ModuleSpecifier)
    (dep selected_dep : TypesDependency) : Bool :=
  let is_dep_referrer_local : Bool := decide (dep.referrer.scheme = "file")
  let is_dep_referrer_code : Bool := decide (dep.referrer = code_specifier)
  let is_selected_referrer_local : Bool :=
    decide (selected_dep.referrer.scheme = "file")
  let is_selected_referrer_code : Bool :=
    decide (selected_dep.referrer = code_specifier)
  if is_dep_referrer_local && !is_selected_referrer_local then
    true
  else if is_dep_referrer_local = is_selected_referrer_local then
    if is_selected_referrer_code then
      false
    else if is_dep_referrer_code then
      true
    else
      -- as a last resort, use the declaration file that's the largest
      decide (source_len g selected_dep.specifier < source_len g dep.specifier)
  else
    false

/-- The selection loop of `select_best_types_dep`: runs over `deps[1..]`
keeping a running best, starting from `deps[0]`. -/
def select_fold (g : ModuleGraph) (code_specifier : ModuleSpecifier) :
    TypesDependency → List TypesDependency → TypesDependency
  | selected_dep, [] => selected_dep
  | selected_dep, dep :: rest =>
      select_fold g code_specifier
        (if should_replace g code_specifier dep selected_dep then dep
         else selected_dep) rest

/-- Model of `select_best_types_dep`.  The Rust function asserts the list
is non-empty and panics otherwise; the panic is modelled by `none`. -/
def select_best_types_dep (g : ModuleGraph) (code_specifier : ModuleSpecifier) :
    List TypesDependency → Option TypesDependency
  | [] => none
  | d :: ds => some (select_fold g code_specifier d ds)

/-- Priority of a candidate in the selection order: referrer locality,
then self-referrer, then source byte length (only consulted for
non-self referrers). -/
def dep_key (g : ModuleGraph) (code_specifier : ModuleSpecifier)
    (d : TypesDependency) : Nat × Nat × Nat :=
  ( if d.referrer.scheme = "file" then 1 else 0,
    if d.referrer = code_specifier then 1 else 0,
    if d.referrer = code_specifier then 0 else source_len g d.specifier )

/-- Strict lexicographic order on priorities. -/
def key_lt (a b : Nat × Nat × Nat) : Prop :=
  a.1 < b.1 ∨ (a.1 = b.1 ∧ (a.2.1 < b.2.1 ∨ (a.2.1 = b.2.1 ∧ a.2.2 < b.2.2)))

instance (a b : Nat × Nat × Nat) : Decidable (key_lt a b) := by
  unfold key_lt; infer_instance

theorem key_lt_irrefl (a : Nat × Nat × Nat) : ¬ key_lt a a := by
  unfold key_lt; omega

theorem key_lt_asymm {a b : Nat × Nat × Nat} (h : key_lt a b) : ¬ key_lt b a := by
  unfold key_lt at *; omega

/-- The replacement test replaces exactly when the new candidate has
strictly greater priority than the current best. -/
theorem should_replace_iff (g : ModuleGraph) (code : ModuleSpecifier)
    (dep sel : TypesDependency) :
    should_replace g code dep sel = true ↔
      key_lt (dep_key g code sel) (dep_key g code dep) := by
  unfold should_replace dep_key key_lt
  by_cases h2 : dep.referrer = code <;> by_cases h4 : sel.referrer = code
  · by_cases h1 : code.scheme = "file" <;> simp [h1, h2, h4]
  · by_cases h1 : code.scheme = "file" <;>
      by_cases h3 : sel.referrer.scheme = "file" <;> simp [h1, h2, h3, h4]
  · by_cases h1 : dep.referrer.scheme = "file" <;>
      by_cases h3 : code.scheme = "file" <;> simp [h1, h2, h3, h4]
  · by_cases h1 : dep.referrer.scheme = "file" <;>
      by_cases h3 : sel.referrer.scheme = "file" <;> simp [h1, h2, h3, h4]

/-- The selection loop only ever returns one of the candidates it saw. -/
theorem select_fold_mem (g : ModuleGraph) (code : ModuleSpecifier) :
    ∀ (ds : List TypesDependency) (d : TypesDependency),
      select_fold g code d ds ∈ d :: ds := by
  intro ds
  induction ds with
  | nil => intro d; simp [select_fold]
  | cons e es ih =>
    intro d
    simp only [select_fold]
    by_cases hr : should_replace g code e d
    · simp only [hr, if_pos]
      have h := ih e
      rcases List.mem_cons.mp h with h | h
      · simp [h]
      · simp [List.mem_cons.mpr (Or.inr (List.mem_cons.mpr (Or.inr h)))]
    · simp only [hr, if_neg, Bool.false_eq_true, not_false_iff, ite_false]
      have h := ih d
      rcases List.mem_cons.mp h with h | h
      · simp [h]
      · simp [List.mem_cons.mpr (Or.inr (List.mem_cons.mpr (Or.inr h)))]

/-- When one candidate has strictly greater priority than every other
candidate, the selection loop returns it, wherever it sits in the list. -/
theorem select_fold_eq_of_unique_max (g : ModuleGraph) (code : ModuleSpecifier) :
    ∀ (ds : List TypesDependency) (d b : TypesDependency),
      (b = d ∨ b ∈ ds) →
      (∀ x, (x = d ∨ x ∈ ds) → x ≠ b →
        key_lt (dep_key g code x) (dep_key g code b)) →
      select_fold g code d ds = b := by
  intro ds
  induction ds with
  | nil =>
    intro d b hmem _
    rcases hmem with h | h
    · simpa [select_fold] using h.symm
    · simp at h
  | cons e es ih =>
    intro d b hmem hmax
    simp only [select_fold]
    by_cases hbd : b = d
    · subst hbd
      have hstep : (if should_replace g code e b then e else b) = b := by
        by_cases hbe : e = b
        · subst hbe
          have : ¬ should_replace g code e e = true := by
            rw [should_replace_iff]; exact key_lt_irrefl _
          simp [Bool.not_eq_true] at this
          simp [this]
        · have hlt : key_lt (dep_key g code e) (dep_key g code b) :=
            hmax e (Or.inr (List.mem_cons_self e es)) hbe
          have : ¬ should_replace g code e b = true := by
            rw [should_replace_iff]; exact key_lt_asymm hlt
          simp [Bool.not_eq_true] at this
          simp [this]
      rw [hstep]
      exact ih b b (Or.inl rfl)
        (fun x hx hxb => hmax x (hx.imp id (fun h => List.mem_cons.mpr (Or.inr h))) hxb)
    · rcases hmem with h | h
      · exact absurd h hbd
      rcases List.mem_cons.mp h with hbe | hbes
      · subst hbe
        have hlt : key_lt (dep_key g code d) (dep_key g code b) :=
          hmax d (Or.inl rfl) (fun hdb => hbd hdb.symm)
        have hrep : should_replace g code b d = true := by
          rw [should_replace_iff]; exact hlt
        rw [hrep]
        simp only [ite_true]
        refine ih b b (Or.inl rfl) (fun x hx hxb => ?_)
        rcases hx with hx | hx
        · exact absurd hx hxb
        · exact hmax x (Or.inr (List.mem_cons.mpr (Or.inr hx))) hxb
      · -- b is further down the list; the running best stays different from b
        have hstepmem : (if should_replace g code e d then e else d) = e ∨
            (if should_replace g code e d then e else d) = d := by
          by_cases hr : should_replace g code e d <;> simp [hr]
        apply ih _ b (Or.inr hbes)
        intro x hx hxb
        rcases hx with hx | hx
        · rcases hstepmem with hs | hs
          · exact hmax x (Or.inr (by rw [hx, hs]; exact List.mem_cons_self e es)) hxb
          · exact hmax x (Or.inl (hx.trans hs)) hxb
        · exact hmax x (Or.inr (List.mem_cons.mpr (Or.inr hx))) hxb

/-- Membership form: a uniquely maximal candidate is always the selection. -/
theorem select_eq_of_unique_max (g : ModuleGraph) (code : ModuleSpecifier)
    (deps : List TypesDependency) (b : TypesDependency)
    (hmem : b ∈ deps)
    (hmax : ∀ x ∈ deps, x ≠ b → key_lt (dep_key g code x) (dep_key g code b)) :
    select_best_types_dep g code deps = some b := by
  cases deps with
  | nil => simp at hmem
  | cons d ds =>
    simp only [select_best_types_dep, Option.some.injEq]
    apply select_fold_eq_of_unique_max g code ds d b
    · exact (List.mem_cons.mp hmem).imp id id
    · intro x hx hxb
      exact hmax x (List.mem_cons.mpr hx) hxb

/-- Per-code-specifier candidate map built by `fill_types_for_module`
(`BTreeMap<ModuleSpecifier, HashSet<TypesDependency>>`); modelled as an
association list whose value lists carry set semantics (no duplicate is
ever inserted). -/
abbrev TypeDependencyMap := List (ModuleSpecifier × List TypesDependency)

/-- Model of `type_dependencies.entry(k).or_insert_with(HashSet::new).insert(v)`. -/
def map_insert (m : TypeDependencyMap) (k : ModuleSpecifier)
    (v : TypesDependency) : TypeDependencyMap :=
  match m with
  | [] => [(k, [v])]
  | (k', vs) :: rest =>
      if k' = k then (k', if v ∈ vs then vs else vs ++ [v]) :: rest
      else (k', vs) :: map_insert rest k v

/-- Model of a `deno_graph` dependency entry: `get_type()` and `get_code()`
give the resolved type and code specifiers when present. -/
structure ModuleDependency where
  get_type : Option ModuleSpecifier
  get_code : Option ModuleSpecifier

/-- Model of a `deno_graph::Module` as consumed by
`fill_types_for_module`: its specifier, the optional
`maybe_types_dependency` (raw reference text together with the optional
resolution result, which may be an error), and its outgoing
dependencies (`dependencies.values()`, in map order). -/
structure Module where
  specifier : ModuleSpecifier
  maybe_types_dependency : Option (String × Option (Except String ModuleSpecifier))
  dependencies : List ModuleDependency

/-- The error message of the `anyhow::bail!` in `fill_types_for_module`. -/
def types_error_message (specifier : ModuleSpecifier) (text : String)
    (err : String) : String :=
  "Error resolving types for " ++ spec_str specifier ++ " with reference "
    ++ text ++ ". " ++ err

/-- Model of the nested `add_type_dependency` helper. -/
def add_type_dependency (module : Module) (code_specifier : ModuleSpecifier)
    (type_specifier : ModuleSpecifier) (type_dependencies : TypeDependencyMap) :
    TypeDependencyMap :=
  map_insert type_dependencies code_specifier
    ⟨type_specifier, module.specifier⟩

/-- The `@deno-types` loop of `fill_types_for_module`. -/
def fill_dependency_types (module : Module) (type_dependencies : TypeDependencyMap) :
    TypeDependencyMap :=
  module.dependencies.foldl
    (fun td dep =>
      match dep.get_type, dep.get_code with
      | some type_dep, some code_dep => add_type_dependency module code_dep type_dep td
      | _, _ => td)
    type_dependencies

/-- Model of `fill_types_for_module`. -/
def fill_types_for_module (module : Module) (type_dependencies : TypeDependencyMap) :
    Except String TypeDependencyMap :=
  match module.maybe_types_dependency with
  | some (text, some (.error err)) =>
      .error (types_error_message module.specifier text err)
  | some (_, some (.ok type_specifier)) =>
      .ok (fill_dependency_types module
        (add_type_dependency module module.specifier type_specifier type_dependencies))
  | _ => .ok (fill_dependency_types module type_dependencies)

/-- The candidate-collection loop of `resolve_declaration_file_mappings`
(`for module in modules { fill_types_for_module(module, ...)? }`). -/
def fill_all_types (modules : List Module) (type_dependencies : TypeDependencyMap) :
    Except String TypeDependencyMap :=
  match modules with
  | [] => .ok type_dependencies
  | m :: rest =>
      match fill_types_for_module m type_dependencies with
      | .error e => .error e
      | .ok td => fill_all_types rest td

/-- One iteration of the selection loop of
`resolve_declaration_file_mappings`: select the best candidate, then sort
the candidates whose specifier differs from the selected one into
`ignored`.  `none` models the panic of the emptiness assertion. -/
def resolve_mapping_entry (g : ModuleGraph)
    (entry : ModuleSpecifier × List TypesDependency) :
    Option (ModuleSpecifier × DeclarationFileResolution) :=
  match select_best_types_dep g entry.1 entry.2 with
  | none => none
  | some selected_dep =>
      let ignored := List.insertionSort (· ≤ ·)
        (entry.2.filter (fun d => d.specifier ≠ selected_dep.specifier))
      some (entry.1, ⟨selected_dep, ignored⟩)

/-- The selection loop over all map entries. -/
def resolve_all_entries (g : ModuleGraph) :
    TypeDependencyMap → Option (List (ModuleSpecifier × DeclarationFileResolution))
  | [] => some []
  | entry :: rest =>
      match resolve_mapping_entry g entry with
      | none => none
      | some r => (resolve_all_entries g rest).map (fun rs => r :: rs)

/-- Model of `resolve_declaration_file_mappings`.  `Except.error` is the
propagated `anyhow` error; the inner `none` models a panic of the
emptiness assertion in `select_best_types_dep`. -/
def resolve_declaration_file_mappings (g : ModuleGraph) (modules : List Module) :
    Except String (Option (List (ModuleSpecifier × DeclarationFileResolution))) :=
  match fill_all_types modules [] with
  | .error e => .error e
  | .ok type_dependencies => .ok (resolve_all_entries g type_dependencies)

/-- Model of the `Specifiers` struct from `lib.rs`, restricted to the
field `get_declaration_warnings` reads. -/
structure Specifiers where
  types : List (ModuleSpecifier × DeclarationFileResolution)

/-- Model of the nested `get_dep_warning` helper of
`get_declaration_warnings`. -/
def get_dep_warning (code_specifier : ModuleSpecifier)
    (dep selected_dep : TypesDependency) (post_message : String) : String :=
  "Duplicate declaration file found for " ++ spec_str code_specifier
    ++ "\n  Specified " ++ spec_str dep.specifier
    ++ " in " ++ spec_str dep.referrer
    ++ "\n  Selected " ++ spec_str selected_dep.specifier
    ++ "\n  " ++ post_message

/-- Model of `get_declaration_warnings` from `lib.rs`. -/
def get_declaration_warnings (specifiers : Specifiers) : List String :=
  specifiers.types.foldl
    (fun messages entry =>
      let code_specifier := entry.1
      let d := entry.2
      if d.selected.referrer.scheme = "file" then
        let local_referrers := d.ignored.filter (fun i => i.referrer.scheme = "file")
        messages ++ local_referrers.map (fun dep =>
          get_dep_warning code_specifier dep d.selected
            "Supress this warning by having only one local file specify the declaration file for this module.")
      else
        messages ++ d.ignored.map (fun dep =>
          get_dep_warning code_specifier dep d.selected
            "Supress this warning by specifying a declaration file for this module locally via `@deno-types`."))
    []

/-- Byte span of a syntax node or token (`swc` `Span`, `lo`/`hi` as `BytePos`). -/
structure Span where
  lo : Nat
  hi : Nat
deriving DecidableEq, Repr

/-- Model of `deno_ast::view::Str`: a string literal with its value and
span (the span covers the quotes). -/
structure Str where
  value : String
  span : Span
deriving DecidableEq, Repr

/-- Model of the object literal of an `assert`/attributes clause; only
its span is consulted. -/
structure ObjectLit where
  span : Span
deriving DecidableEq, Repr

/-- Model of a source token as returned by `previous_token_fast`. -/
structure Token where
  text : String
  span : Span
deriving DecidableEq, Repr

/-- Model of `deno_ast::TextChange`: a half-open byte range over the
original source text plus replacement text. -/
structure TextChange where
  range : Nat × Nat
  new_text : String
deriving DecidableEq, Repr

/-- Expression of a call argument, as inspected by the dynamic-import
branch (only "is it a string literal" matters). -/
inductive ArgExpr where
  | str_arg (s : Str)
  | other_arg
deriving DecidableEq

/-- Model of an `ExprOrSpread` call argument with its span. -/
structure CallArg where
  expr : ArgExpr
  span : Span
deriving DecidableEq

/-- Model of the tagged syntax-tree nodes distinguished by
`visit_children` in `imports_exports.rs`.  Constructs that only get
recursed into are collapsed into `other`. -/
inductive Node where
  | import_decl (src : Str) (asserts : Option ObjectLit)
  | export_all (src : Str) (asserts : Option ObjectLit)
  | named_export (src : Option Str) (asserts : Option ObjectLit)
  | call_expr (callee_is_import : Bool) (args : List CallArg) (children : List Node)
  | other (children : List Node)

/-- Model of the rewriter `Context`: the module's own specifier, the
external collaborators (`module_graph.resolve_dependency`, the output
mapper's `get_file_path` and `get_relative_specifier`, the token stream
accessor `previous_token_fast`), the output path of this module, and
the external-package mapping table. -/
structure Context where
  specifier : ModuleSpecifier
  resolve_dependency : String → ModuleSpecifier → Option ModuleSpecifier
  get_file_path : ModuleSpecifier → String
  get_relative_specifier : String → String → String
  output_file_path : String
  package_specifier_mappings : ModuleSpecifier → Option String
  prev_token : Span → Option Token

/-- Model of `visit_module_specifier`: resolve the literal's value; on
failure emit nothing, otherwise emit one edit covering the characters
strictly between the quotes, replacing them with the bare package name
or the mapper-computed relative specifier. -/
def visit_module_specifier (str : Str) (context : Context) : List TextChange :=
  match context.resolve_dependency str.value context.specifier with
  | none => []
  | some specifier =>
      let new_text :=
        match context.package_specifier_mappings specifier with
        | some bare_specifier => bare_specifier
        | none =>
            context.get_relative_specifier context.output_file_path
              (context.get_file_path specifier)
      [⟨(str.span.lo + 1, str.span.hi - 1), new_text⟩]

/-- Model of `visit_asserts`: find the `assert` keyword token before the
object literal and the token before that, and delete from the end of
that previous token through the end of the clause.  `none` models the
panics of the two `unwrap`s and of the `assert_eq!`. -/
def visit_asserts (asserts : ObjectLit) (context : Context) : Option TextChange :=
  match context.prev_token asserts.span with
  | none => none
  | some assert_token =>
      if assert_token.text = "assert" then
        match context.prev_token assert_token.span with
        | none => none
        | some previous_token =>
            some ⟨(previous_token.span.hi, asserts.span.hi), ""⟩
      else none

/-- Model of `visit_children`: walk the children in order, handling the
four import/export constructs and recursing into everything else.
`none` models a panic reached in a handled construct. -/
def visit_children (nodes : List Node) (context : Context) :
    Option (List TextChange) :=
  match nodes with
  | [] => some []
  | child :: rest =>
      let head_changes : Option (List TextChange) :=
        match child with
        | .import_decl src asserts =>
            let cs := visit_module_specifier src context
            match asserts with
            | some a => (visit_asserts a context).map (fun c => cs ++ [c])
            | none => some cs
        | .export_all src asserts =>
            let cs := visit_module_specifier src context
            match asserts with
            | some a => (visit_asserts a context).map (fun c => cs ++ [c])
            | none => some cs
        | .named_export src asserts =>
            let cs := match src with
              | some s => visit_module_specifier s context
              | none => []
            match asserts with
            | some a => (visit_asserts a context).map (fun c => cs ++ [c])
            | none => some cs
        | .call_expr true args _ =>
            match args.head? with
            | some arg =>
                match arg.expr with
                | .str_arg src =>
                    let cs := visit_module_specifier src context
                    if h : 1 < args.length then
                      let assert_arg := args.get ⟨1, h⟩
                      match context.prev_token assert_arg.span with
                      | none => none
                      | some comma_token =>
                          some (cs ++ [⟨(comma_token.span.lo, assert_arg.span.hi), ""⟩])
                    else some cs
                | .other_arg => some []
            | none => some []
        | .call_expr false _ children => visit_children children context
        | .other children => visit_children children context
      match head_changes with
      | none => none
      | some cs => (visit_children rest context).map (fun rs => cs ++ rs)

/-- C1 (counterexample): declaration-file selection is NOT order-independent
as claimed.  Two remote, non-self candidates whose target source texts have
equal byte length tie in the selection order, and the loop keeps whichever
came first: permuting the candidate list changes the selected
TypesDependency. -/
theorem c1_counterexample :
    ([⟨⟨"https", "a.com/a.d.ts"⟩, ⟨"https", "a.com/a.ts"⟩⟩,
      ⟨⟨"https", "b.com/b.d.ts"⟩, ⟨"https", "b.com/b.ts"⟩⟩] :
       List TypesDependency).Perm
      [⟨⟨"https", "b.com/b.d.ts"⟩, ⟨"https", "b.com/b.ts"⟩⟩,
       ⟨⟨"https", "a.com/a.d.ts"⟩, ⟨"https", "a.com/a.ts"⟩⟩]
    ∧ select_best_types_dep ⟨fun _ => ""⟩ ⟨"https", "c.com/c.ts"⟩
        [⟨⟨"https", "a.com/a.d.ts"⟩, ⟨"https", "a.com/a.ts"⟩⟩,
         ⟨⟨"https", "b.com/b.d.ts"⟩, ⟨"https", "b.com/b.ts"⟩⟩]
      ≠ select_best_types_dep ⟨fun _ => ""⟩ ⟨"https", "c.com/c.ts"⟩
        [⟨⟨"https", "b.com/b.d.ts"⟩, ⟨"https", "b.com/b.ts"⟩⟩,
         ⟨⟨"https", "a.com/a.d.ts"⟩, ⟨"https", "a.com/a.ts"⟩⟩] :=
  ⟨List.Perm.swap _ _ _, by decide⟩

/-- C1 (amended): declaration-file selection is order-independent whenever
one candidate has strictly greater selection priority (referrer locality,
then self-referrer, then target source byte length) than every other
candidate: every permutation of the candidate list then selects that
candidate. -/
theorem c1_order_independent (g : ModuleGraph) (code : ModuleSpecifier)
    (l1 l2 : List TypesDependency) (b : TypesDependency)
    (hperm : l1.Perm l2) (hmem : b ∈ l1)
    (hmax : ∀ x ∈ l1, x ≠ b → key_lt (dep_key g code x) (dep_key g code b)) :
    select_best_types_dep g code l1 = select_best_types_dep g code l2
      ∧ select_best_types_dep g code l1 = some b := by
  have h1 := select_eq_of_unique_max g code l1 b hmem hmax
  have h2 := select_eq_of_unique_max g code l2 b (hperm.subset hmem)
    (fun x hx hxb => hmax x (hperm.symm.subset hx) hxb)
  exact ⟨h1.trans h2.symm, h1⟩

/-- C1 (witness): a concrete instance of the amended order-independence. -/
theorem c1_witness :
    select_best_types_dep ⟨fun _ => ""⟩ ⟨"https", "c.com/c.ts"⟩
        [⟨⟨"https", "s1.d.ts"⟩, ⟨"file", "/r.ts"⟩⟩,
         ⟨⟨"https", "s2.d.ts"⟩, ⟨"https", "r2.ts"⟩⟩]
      = select_best_types_dep ⟨fun _ => ""⟩ ⟨"https", "c.com/c.ts"⟩
        [⟨⟨"https", "s2.d.ts"⟩, ⟨"https", "r2.ts"⟩⟩,
         ⟨⟨"https", "s1.d.ts"⟩, ⟨"file", "/r.ts"⟩⟩]
      ∧ select_best_types_dep ⟨fun _ => ""⟩ ⟨"https", "c.com/c.ts"⟩
        [⟨⟨"https", "s1.d.ts"⟩, ⟨"file", "/r.ts"⟩⟩,
         ⟨⟨"https", "s2.d.ts"⟩, ⟨"https", "r2.ts"⟩⟩]
      = some ⟨⟨"https", "s1.d.ts"⟩, ⟨"file", "/r.ts"⟩⟩ :=
  c1_order_independent ⟨fun _ => ""⟩ ⟨"https", "c.com/c.ts"⟩
    [⟨⟨"https", "s1.d.ts"⟩, ⟨"file", "/r.ts"⟩⟩,
     ⟨⟨"https", "s2.d.ts"⟩, ⟨"https", "r2.ts"⟩⟩]
    [⟨⟨"https", "s2.d.ts"⟩, ⟨"https", "r2.ts"⟩⟩,
     ⟨⟨"https", "s1.d.ts"⟩, ⟨"file", "/r.ts"⟩⟩]
    ⟨⟨"https", "s1.d.ts"⟩, ⟨"file", "/r.ts"⟩⟩
    (List.Perm.swap _ _ _) (by decide) (by decide)

/-- C4: a candidate whose referrer has the local (`file`) scheme always
beats candidates whose referrers do not: whenever exactly one candidate
has a file-scheme referrer, `select_best_types_dep` selects it, for every
module graph (hence regardless of source byte lengths). -/
theorem c4_local_beats_remote (g : ModuleGraph) (code : ModuleSpecifier)
    (deps : List TypesDependency) (b : TypesDependency)
    (hmem : b ∈ deps) (hlocal : b.referrer.scheme = "file")
    (hothers : ∀ x ∈ deps, x ≠ b → x.referrer.scheme ≠ "file") :
    select_best_types_dep g code deps = some b := by
  apply select_eq_of_unique_max g code deps b hmem
  intro x hx hxb
  have hxr := hothers x hx hxb
  unfold dep_key key_lt
  simp [hlocal, hxr]

/-- C4 (witness): the remote-referrer candidate's declaration file is ten
bytes long, the local-referrer one's is empty; the local one still wins. -/
theorem c4_witness :
    select_best_types_dep ⟨fun s => if s.path = "big.d.ts" then "0123456789" else ""⟩
      ⟨"https", "c.ts"⟩
      [⟨⟨"https", "big.d.ts"⟩, ⟨"https", "r.ts"⟩⟩,
       ⟨⟨"https", "small.d.ts"⟩, ⟨"file", "/l.ts"⟩⟩]
      = some ⟨⟨"https", "small.d.ts"⟩, ⟨"file", "/l.ts"⟩⟩ :=
  c4_local_beats_remote _ _ _ _ (by decide) (by decide) (by decide)

/-- C5: among candidates whose referrers are equally local or equally
non-local, the unique candidate whose referrer is the code-module
specifier itself is selected, for every module graph (hence regardless of
source byte lengths). -/
theorem c5_self_referrer_beats (g : ModuleGraph) (code : ModuleSpecifier)
    (deps : List TypesDependency) (b : TypesDependency)
    (hmem : b ∈ deps) (hself : b.referrer = code)
    (hloc : ∀ x ∈ deps, (x.referrer.scheme = "file" ↔ b.referrer.scheme = "file"))
    (hothers : ∀ x ∈ deps, x ≠ b → x.referrer ≠ code) :
    select_best_types_dep g code deps = some b := by
  apply select_eq_of_unique_max g code deps b hmem
  intro x hx hxb
  have hxc := hothers x hx hxb
  have hxl := hloc x hx
  have hbs : b.referrer.scheme = code.scheme := by rw [hself]
  unfold dep_key key_lt
  by_cases hbf : code.scheme = "file"
  · have hxf : x.referrer.scheme = "file" := hxl.mpr (by rw [hbs, hbf])
    simp [hself, hxf, hxc, hbf]
  · have hxf : ¬ x.referrer.scheme = "file" := fun h => hbf (hbs ▸ hxl.mp h)
    simp [hself, hxf, hxc, hbf]

/-- C5 (witness): the third-party remote candidate's declaration file is
larger, the self-declared one still wins. -/
theorem c5_witness :
    select_best_types_dep ⟨fun s => if s.path = "third.d.ts" then "0123456789" else ""⟩
      ⟨"https", "c.ts"⟩
      [⟨⟨"https", "third.d.ts"⟩, ⟨"https", "third.ts"⟩⟩,
       ⟨⟨"https", "self.d.ts"⟩, ⟨"https", "c.ts"⟩⟩]
      = some ⟨⟨"https", "self.d.ts"⟩, ⟨"https", "c.ts"⟩⟩ :=
  c5_self_referrer_beats _ _ _ _ (by decide) (by decide) (by decide) (by decide)

/-- C6: among two candidates of the same referrer locality, neither of
which is a self-referrer, the one with strictly greater target source byte
length is selected, and on equal lengths the first-encountered candidate
is kept. -/
theorem c6_size_tie_break (g : ModuleGraph) (code : ModuleSpecifier)
    (d1 d2 : TypesDependency)
    (hloc : (d1.referrer.scheme = "file") ↔ (d2.referrer.scheme = "file"))
    (h1 : d1.referrer ≠ code) (h2 : d2.referrer ≠ code) :
    select_best_types_dep g code [d1, d2]
      = some (if source_len g d1.specifier < source_len g d2.specifier
              then d2 else d1) := by
  have hrep : should_replace g code d2 d1
      = decide (source_len g d1.specifier < source_len g d2.specifier) := by
    unfold should_replace
    by_cases hl2 : d2.referrer.scheme = "file"
    · have hl1 : d1.referrer.scheme = "file" := hloc.mpr hl2
      simp [hl1, hl2, h1, h2]
    · have hl1 : ¬ d1.referrer.scheme = "file" := fun h => hl2 (hloc.mp h)
      simp [hl1, hl2, h1, h2]
  simp only [select_best_types_dep, select_fold, hrep, Option.some.injEq]
  by_cases hlen : source_len g d1.specifier < source_len g d2.specifier <;>
    simp [hlen]

/-- C6 (witness): three bytes beat one byte between two remote, non-self
candidates. -/
theorem c6_witness :
    select_best_types_dep ⟨fun s => if s.path = "b.d.ts" then "abc" else "a"⟩
      ⟨"https", "c.ts"⟩
      [⟨⟨"https", "a.d.ts"⟩, ⟨"https", "ra.ts"⟩⟩,
       ⟨⟨"https", "b.d.ts"⟩, ⟨"https", "rb.ts"⟩⟩]
      = some ⟨⟨"https", "b.d.ts"⟩, ⟨"https", "rb.ts"⟩⟩ :=
  (c6_size_tie_break _ _ _ _ (by decide) (by decide) (by decide)).trans (by decide)

/-- C2 (counterexample): `ignored` does NOT contain every non-selected
candidate.  The filter drops candidates by specifier only, so a
non-selected candidate that shares the selected candidate's specifier but
has a different referrer is silently dropped from `ignored`. -/
theorem c2_counterexample :
    resolve_mapping_entry ⟨fun _ => ""⟩
      (⟨"https", "c.ts"⟩,
        [⟨⟨"https", "t.d.ts"⟩, ⟨"https", "r1.ts"⟩⟩,
         ⟨⟨"https", "t.d.ts"⟩, ⟨"https", "r2.ts"⟩⟩])
      = some (⟨"https", "c.ts"⟩,
          ⟨⟨⟨"https", "t.d.ts"⟩, ⟨"https", "r1.ts"⟩⟩, []⟩)
    ∧ (⟨⟨"https", "t.d.ts"⟩, ⟨"https", "r2.ts"⟩⟩ : TypesDependency)
        ≠ ⟨⟨"https", "t.d.ts"⟩, ⟨"https", "r1.ts"⟩⟩ := by
  constructor
  · rfl
  · decide

/-- C2 (amended): the `ignored` sequence of a resolution contains exactly
the candidates whose SPECIFIER differs from the selected candidate's
specifier (candidates sharing the selected specifier under another
referrer are dropped), and the sequence is sorted. -/
theorem c2_ignored_sorted (g : ModuleGraph)
    (entry : ModuleSpecifier × List TypesDependency)
    (code_specifier : ModuleSpecifier) (res : DeclarationFileResolution)
    (hres : resolve_mapping_entry g entry = some (code_specifier, res)) :
    code_specifier = entry.1
    ∧ List.Sorted (· ≤ ·) res.ignored
    ∧ ∀ x, (x ∈ res.ignored ↔ x ∈ entry.2 ∧ x.specifier ≠ res.selected.specifier) := by
  unfold resolve_mapping_entry at hres
  cases hsel : select_best_types_dep g entry.1 entry.2 with
  | none => rw [hsel] at hres; simp at hres
  | some selected_dep =>
    rw [hsel] at hres
    simp only [Option.some.injEq, Prod.mk.injEq] at hres
    obtain ⟨hcode, hresval⟩ := hres
    subst hcode
    subst hresval
    refine ⟨rfl, List.sorted_insertionSort _ _, fun x => ?_⟩
    rw [(List.perm_insertionSort (· ≤ ·) _).mem_iff, List.mem_filter]
    simp

/-- C2 (witness): a concrete resolution with one ignored candidate. -/
theorem c2_witness :
    (⟨"https", "c.ts"⟩ : ModuleSpecifier) = ⟨"https", "c.ts"⟩
    ∧ List.Sorted (· ≤ ·)
        ([⟨⟨"https", "t2.d.ts"⟩, ⟨"https", "r2.ts"⟩⟩] : List TypesDependency)
    ∧ ∀ x : TypesDependency,
        (x ∈ ([⟨⟨"https", "t2.d.ts"⟩, ⟨"https", "r2.ts"⟩⟩] : List TypesDependency)
          ↔ x ∈ [⟨⟨"https", "t1.d.ts"⟩, ⟨"https", "r1.ts"⟩⟩,
                 ⟨⟨"https", "t2.d.ts"⟩, ⟨"https", "r2.ts"⟩⟩]
            ∧ x.specifier ≠ ⟨"https", "t1.d.ts"⟩) :=
  c2_ignored_sorted ⟨fun _ => ""⟩
    (⟨"https", "c.ts"⟩,
      [⟨⟨"https", "t1.d.ts"⟩, ⟨"https", "r1.ts"⟩⟩,
       ⟨⟨"https", "t2.d.ts"⟩, ⟨"https", "r2.ts"⟩⟩])
    ⟨"https", "c.ts"⟩
    ⟨⟨⟨"https", "t1.d.ts"⟩, ⟨"https", "r1.ts"⟩⟩,
      [⟨⟨"https", "t2.d.ts"⟩, ⟨"https", "r2.ts"⟩⟩]⟩
    (by rfl)

/-- C3 (counterexample): when the selected referrer is local and an
ignored candidate's referrer is remote, NO warning is emitted for that
ignored candidate: `get_declaration_warnings` filters the ignored list
down to local referrers in that branch, yielding an empty warning list
here despite a non-empty ignored set. -/
theorem c3_counterexample :
    get_declaration_warnings
      ⟨[(⟨"https", "c.ts"⟩,
          ⟨⟨⟨"https", "sel.d.ts"⟩, ⟨"file", "/l.ts"⟩⟩,
            [⟨⟨"https", "ign.d.ts"⟩, ⟨"https", "remote.ts"⟩⟩]⟩)]⟩ = []
    ∧ (⟨"file", "/l.ts"⟩ : ModuleSpecifier).scheme = "file"
    ∧ (⟨"https", "remote.ts"⟩ : ModuleSpecifier).scheme ≠ "file" := by
  refine ⟨?_, rfl, by decide⟩
  rfl

/-- C3 (amended): for each code module, when the selected referrer is
remote every ignored candidate yields exactly one warning line with the
local-override remediation hint, and when the selected referrer is local
only the ignored candidates with LOCAL referrers yield a warning line
(with the consolidation hint); each line names the code module, the
ignored candidate's specifier and referrer, and the selected specifier. -/
theorem c3_warnings (specifiers : Specifiers) :
    get_declaration_warnings specifiers
      = specifiers.types.flatMap (fun entry =>
          if entry.2.selected.referrer.scheme = "file" then
            (entry.2.ignored.filter (fun i => i.referrer.scheme = "file")).map
              (fun dep =>
                "Duplicate declaration file found for " ++ spec_str entry.1
                  ++ "\n  Specified " ++ spec_str dep.specifier
                  ++ " in " ++ spec_str dep.referrer
                  ++ "\n  Selected " ++ spec_str entry.2.selected.specifier
                  ++ "\n  " ++ "Supress this warning by having only one local file specify the declaration file for this module.")
          else
            entry.2.ignored.map (fun dep =>
                "Duplicate declaration file found for " ++ spec_str entry.1
                  ++ "\n  Specified " ++ spec_str dep.specifier
                  ++ " in " ++ spec_str dep.referrer
                  ++ "\n  Selected " ++ spec_str entry.2.selected.specifier
                  ++ "\n  " ++ "Supress this warning by specifying a declaration file for this module locally via `@deno-types`.")) := by
  unfold get_declaration_warnings
  suffices h : ∀ (l : List (ModuleSpecifier × DeclarationFileResolution))
      (acc : List String),
      l.foldl (fun messages entry =>
        if entry.2.selected.referrer.scheme = "file" then
          messages ++ (entry.2.ignored.filter (fun i => i.referrer.scheme = "file")).map
            (fun dep => get_dep_warning entry.1 dep entry.2.selected
              "Supress this warning by having only one local file specify the declaration file for this module.")
        else
          messages ++ entry.2.ignored.map
            (fun dep => get_dep_warning entry.1 dep entry.2.selected
              "Supress this warning by specifying a declaration file for this module locally via `@deno-types`.")) acc
      = acc ++ l.flatMap (fun entry =>
          if entry.2.selected.referrer.scheme = "file" then
            (entry.2.ignored.filter (fun i => i.referrer.scheme = "file")).map
              (fun dep => get_dep_warning entry.1 dep entry.2.selected
                "Supress this warning by having only one local file specify the declaration file for this module.")
          else
            entry.2.ignored.map
              (fun dep => get_dep_warning entry.1 dep entry.2.selected
                "Supress this warning by specifying a declaration file for this module locally via `@deno-types`.")) by
    rw [h specifiers.types []]
    simp [get_dep_warning]
  · intro l
    induction l with
    | nil => intro acc; simp
    | cons e es ih =>
      intro acc
      simp only [List.foldl_cons, List.flatMap_cons]
      by_cases hsel : e.2.selected.referrer.scheme = "file" <;>
        simp [hsel, ih, List.append_assoc]

/-- C7: for a specifier literal in any handled construct, the rewriter
emits exactly one TextChange covering the characters strictly between the
quotes, whose replacement is the bare external-package name when a
mapping exists and the mapper-computed relative specifier otherwise; when
resolution yields no target, no TextChange is emitted for the literal. -/
theorem c7_specifier_rewrite (context : Context) (src : Str) :
    (visit_module_specifier src context
      = match context.resolve_dependency src.value context.specifier with
        | none => []
        | some target =>
            [⟨(src.span.lo + 1, src.span.hi - 1),
              match context.package_specifier_mappings target with
              | some bare => bare
              | none => context.get_relative_specifier context.output_file_path
                  (context.get_file_path target)⟩])
    ∧ visit_children [.import_decl src none] context
        = some (visit_module_specifier src context)
    ∧ visit_children [.export_all src none] context
        = some (visit_module_specifier src context)
    ∧ visit_children [.named_export (some src) none] context
        = some (visit_module_specifier src context)
    ∧ (∀ sp : Span,
        visit_children [.call_expr true [⟨.str_arg src, sp⟩] []] context
          = some (visit_module_specifier src context))
    ∧ visit_children [.named_export none none] context = some [] := by
  refine ⟨rfl, ?_, ?_, ?_, fun sp => ?_, ?_⟩ <;>
    simp [visit_children]

/-- C8: every handled construct carrying a trailing assert clause gets an
unconditional deletion edit with empty replacement: for static imports and
re-exports the deleted span runs from immediately after the specifier
literal (the token preceding the `assert` keyword) through the end of the
clause, and for dynamic imports from the preceding comma through the end
of the second argument. -/
theorem c8_assert_clause_removed (context : Context) (src : Str) (a : ObjectLit)
    (assert_token previous_token : Token)
    (h1 : context.prev_token a.span = some assert_token)
    (h2 : assert_token.text = "assert")
    (h3 : context.prev_token assert_token.span = some previous_token)
    (h4 : previous_token.span.hi = src.span.hi) :
    visit_children [.import_decl src (some a)] context
      = some (visit_module_specifier src context ++ [⟨(src.span.hi, a.span.hi), ""⟩])
    ∧ visit_children [.export_all src (some a)] context
      = some (visit_module_specifier src context ++ [⟨(src.span.hi, a.span.hi), ""⟩])
    ∧ visit_children [.named_export (some src) (some a)] context
      = some (visit_module_specifier src context ++ [⟨(src.span.hi, a.span.hi), ""⟩])
    ∧ (∀ (sp : Span) (assert_arg : CallArg) (comma_token : Token),
        context.prev_token assert_arg.span = some comma_token →
        visit_children [.call_expr true [⟨.str_arg src, sp⟩, assert_arg] []] context
          = some (visit_module_specifier src context
              ++ [⟨(comma_token.span.lo, assert_arg.span.hi), ""⟩])) := by
  have hassert : visit_asserts a context = some ⟨(src.span.hi, a.span.hi), ""⟩ := by
    simp [visit_asserts, h1, h2, h3, h4]
  refine ⟨?_, ?_, ?_, fun sp assert_arg comma_token hc => ?_⟩
  · simp [visit_children, hassert]
  · simp [visit_children, hassert]
  · simp [visit_children, hassert]
  · simp [visit_children, hc]

/-- Concrete rewriter context for witnessing the assert-clause removal:
the token before the clause's object literal is the `assert` keyword, the
token before that ends where the specifier literal ends, and the token
before the span `(50, 60)` is a comma. -/
def example_context : Context :=
  ⟨⟨"file", "/m.ts"⟩, fun _ _ => none, fun _ => "", fun _ _ => "", "",
   fun _ => none,
   fun s =>
     if s = ⟨30, 40⟩ then some ⟨"assert", ⟨22, 28⟩⟩
     else if s = ⟨22, 28⟩ then some ⟨"quoted", ⟨10, 20⟩⟩
     else if s = ⟨50, 60⟩ then some ⟨",", ⟨20, 21⟩⟩
     else none⟩

/-- C8 (witness): a concrete import declaration with an assert clause
gets exactly the deletion edit from the end of the specifier literal
(byte 20) through the end of the clause (byte 40). -/
theorem c8_witness :
    visit_children [.import_decl ⟨"./b.ts", ⟨10, 20⟩⟩ (some ⟨⟨30, 40⟩⟩)]
      example_context = some [⟨(20, 40), ""⟩] := by
  have h := (c8_assert_clause_removed example_context ⟨"./b.ts", ⟨10, 20⟩⟩
    ⟨⟨30, 40⟩⟩ ⟨"assert", ⟨22, 28⟩⟩ ⟨"quoted", ⟨10, 20⟩⟩
    (by rfl) rfl (by rfl) rfl).1
  simpa [visit_module_specifier, example_context] using h

/-- A module whose `maybe_types_dependency` resolved successfully or was
absent makes `fill_types_for_module` succeed. -/
theorem fill_types_ok (m : Module) (td : TypeDependencyMap)
    (hm : ∀ text err, m.maybe_types_dependency ≠ some (text, some (.error err))) :
    ∃ td', fill_types_for_module m td = .ok td' := by
  rcases hmt : m.maybe_types_dependency with _ | ⟨text, _ | (⟨err⟩ | ⟨ts⟩)⟩
  · exact ⟨_, by unfold fill_types_for_module; rw [hmt]⟩
  · exact ⟨_, by unfold fill_types_for_module; rw [hmt]⟩
  · exact absurd hmt (hm text err)
  · exact ⟨_, by unfold fill_types_for_module; rw [hmt]⟩

/-- The collection loop succeeds when no module carries a failed types
resolution. -/
theorem fill_all_types_ok :
    ∀ (modules : List Module) (td : TypeDependencyMap),
      (∀ m ∈ modules, ∀ text err,
        m.maybe_types_dependency ≠ some (text, some (.error err))) →
      ∃ td', fill_all_types modules td = .ok td' := by
  intro modules
  induction modules with
  | nil => intro td _; exact ⟨td, rfl⟩
  | cons m rest ih =>
    intro td h
    obtain ⟨td', hok⟩ := fill_types_ok m td (h m (List.mem_cons_self _ _))
    unfold fill_all_types
    rw [hok]
    exact ih td' (fun m' hm' => h m' (List.mem_cons.mpr (Or.inr hm')))

/-- A failed types resolution makes `fill_types_for_module` return exactly
the formatted error. -/
theorem fill_types_err (m : Module) (td : TypeDependencyMap) (text err : String)
    (hm : m.maybe_types_dependency = some (text, some (.error err))) :
    fill_types_for_module m td
      = .error (types_error_message m.specifier text err) := by
  unfold fill_types_for_module
  rw [hm]

/-- The collection loop propagates the error of the first module whose
types resolution failed. -/
theorem fill_all_types_err :
    ∀ (pre : List Module) (m : Module) (post : List Module)
      (td : TypeDependencyMap) (text err : String),
      (∀ m' ∈ pre, ∀ t e,
        m'.maybe_types_dependency ≠ some (t, some (.error e))) →
      m.maybe_types_dependency = some (text, some (.error err)) →
      fill_all_types (pre ++ m :: post) td
        = .error (types_error_message m.specifier text err) := by
  intro pre
  induction pre with
  | nil =>
    intro m post td text err _ hm
    simp only [List.nil_append]
    unfold fill_all_types
    rw [fill_types_err m td text err hm]
  | cons p ps ih =>
    intro m post td text err hpre hm
    obtain ⟨td', hok⟩ := fill_types_ok p td (hpre p (List.mem_cons_self _ _))
    simp only [List.cons_append]
    unfold fill_all_types
    rw [hok]
    exact ih m post td' text err
      (fun m' h' => hpre m' (List.mem_cons.mpr (Or.inr h'))) hm

/-- C9: if some module's own declared type reference failed to resolve,
`resolve_declaration_file_mappings` aborts with an error naming the
module's specifier, the raw reference text and the underlying failure;
when no module carries such a failure it always succeeds, so this is the
only error it propagates. -/
theorem c9_only_types_resolution_error (g : ModuleGraph) :
    (∀ modules : List Module,
      (∀ m ∈ modules, ∀ text err,
        m.maybe_types_dependency ≠ some (text, some (.error err))) →
      ∃ r, resolve_declaration_file_mappings g modules = .ok r)
    ∧ (∀ (pre : List Module) (m : Module) (post : List Module) (text err : String),
        (∀ m' ∈ pre, ∀ t e,
          m'.maybe_types_dependency ≠ some (t, some (.error e))) →
        m.maybe_types_dependency = some (text, some (.error err)) →
        resolve_declaration_file_mappings g (pre ++ m :: post)
          = .error (types_error_message m.specifier text err)) := by
  constructor
  · intro modules h
    obtain ⟨td, hok⟩ := fill_all_types_ok modules [] h
    exact ⟨_, by unfold resolve_declaration_file_mappings; rw [hok]⟩
  · intro pre m post text err hpre hm
    unfold resolve_declaration_file_mappings
    rw [fill_all_types_err pre m post [] text err hpre hm]

/-- C9 (witness): a single module with a failed declared type reference
aborts the run with the fully formatted error message. -/
theorem c9_witness :
    resolve_declaration_file_mappings ⟨fun _ => ""⟩
      [⟨⟨"https", "m.ts"⟩, some ("./t.d.ts", some (.error "not found")), []⟩]
      = .error "Error resolving types for https://m.ts with reference ./t.d.ts. not found" := by
  have h := (c9_only_types_resolution_error ⟨fun _ => ""⟩).2 []
    ⟨⟨"https", "m.ts"⟩, some ("./t.d.ts", some (.error "not found")), []⟩ []
    "./t.d.ts" "not found" (by simp) rfl
  simpa [types_error_message, spec_str] using h

/-- Folding preserves any invariant preserved by each step. -/
theorem foldl_preserve {α β : Type _} (f : β → α → β) (P : β → Prop)
    (hstep : ∀ b a, P b → P (f b a)) :
    ∀ (l : List α) (b : β), P b → P (l.foldl f b) := by
  intro l
  induction l with
  | nil => intro b hb; exact hb
  | cons x xs ih => intro b hb; exact ih (f b x) (hstep b x hb)

/-- Inserting into the candidate map never creates an empty candidate
list. -/
theorem map_insert_nonempty (k : ModuleSpecifier) (v : TypesDependency) :
    ∀ (m : TypeDependencyMap),
      (∀ e ∈ m, e.2 ≠ []) → ∀ e ∈ map_insert m k v, e.2 ≠ [] := by
  intro m
  induction m with
  | nil =>
    intro _ e he
    simp only [map_insert, List.mem_singleton] at he
    subst he
    simp
  | cons p ps ih =>
    intro h e he
    obtain ⟨k', vs⟩ := p
    unfold map_insert at he
    by_cases hk : k' = k
    · simp only [hk, if_pos, ite_true] at he
      rcases List.mem_cons.mp he with he | he
      · subst he
        by_cases hv : v ∈ vs
        · simpa [hv] using List.ne_nil_of_mem hv
        · simp [hv]
      · exact h e (List.mem_cons.mpr (Or.inr he))
    · simp only [hk, ite_false] at he
      rcases List.mem_cons.mp he with he | he
      · subst he
        exact h (k', vs) (List.mem_cons_self _ _)
      · exact ih (fun x hx => h x (List.mem_cons.mpr (Or.inr hx))) e he

/-- The `@deno-types` collection step preserves non-emptiness of all
candidate lists. -/
theorem fill_dependency_types_nonempty (module : Module)
    (td : TypeDependencyMap) (hinv : ∀ e ∈ td, e.2 ≠ []) :
    ∀ e ∈ fill_dependency_types module td, e.2 ≠ [] := by
  unfold fill_dependency_types
  refine foldl_preserve _ (fun b => ∀ e ∈ b, e.2 ≠ []) ?_ module.dependencies td hinv
  intro b dep hb
  cases ht : dep.get_type with
  | none => simpa [ht] using hb
  | some t =>
    cases hc : dep.get_code with
    | none => simpa [ht, hc] using hb
    | some c =>
      simp only [ht, hc]
      exact map_insert_nonempty c _ b hb

/-- `fill_types_for_module` preserves non-emptiness of all candidate
lists. -/
theorem fill_types_nonempty (m : Module) (td td' : TypeDependencyMap)
    (hinv : ∀ e ∈ td, e.2 ≠ []) (hok : fill_types_for_module m td = .ok td') :
    ∀ e ∈ td', e.2 ≠ [] := by
  unfold fill_types_for_module at hok
  rcases hmt : m.maybe_types_dependency with _ | ⟨text, _ | (⟨err⟩ | ⟨ts⟩)⟩ <;>
    rw [hmt] at hok
  · simp only [Except.ok.injEq] at hok
    subst hok
    exact fill_dependency_types_nonempty m td hinv
  · simp only [Except.ok.injEq] at hok
    subst hok
    exact fill_dependency_types_nonempty m td hinv
  · simp at hok
  · simp only [Except.ok.injEq] at hok
    subst hok
    exact fill_dependency_types_nonempty m _
      (map_insert_nonempty _ _ td hinv)

/-- The collection loop preserves non-emptiness of all candidate lists. -/
theorem fill_all_nonempty :
    ∀ (modules : List Module) (td td' : TypeDependencyMap),
      (∀ e ∈ td, e.2 ≠ []) → fill_all_types modules td = .ok td' →
      ∀ e ∈ td', e.2 ≠ [] := by
  intro modules
  induction modules with
  | nil =>
    intro td td' hinv hok
    unfold fill_all_types at hok
    simp only [Except.ok.injEq] at hok
    subst hok
    exact hinv
  | cons m rest ih =>
    intro td td' hinv hok
    unfold fill_all_types at hok
    cases hm : fill_types_for_module m td with
    | error e => rw [hm] at hok; simp at hok
    | ok tdm =>
      rw [hm] at hok
      exact ih tdm td' (fill_types_nonempty m td tdm hinv hm) hok

/-- Every entry with a non-empty candidate list resolves, so the
selection loop over a map of non-empty candidate lists never panics. -/
theorem resolve_all_entries_some (g : ModuleGraph) :
    ∀ td : TypeDependencyMap, (∀ e ∈ td, e.2 ≠ []) →
      ∃ l, resolve_all_entries g td = some l := by
  intro td
  induction td with
  | nil => exact fun _ => ⟨[], rfl⟩
  | cons e es ih =>
    intro h
    obtain ⟨l, hl⟩ := ih (fun x hx => h x (List.mem_cons.mpr (Or.inr hx)))
    have he : e.2 ≠ [] := h e (List.mem_cons_self _ _)
    unfold resolve_all_entries resolve_mapping_entry
    cases hev : e.2 with
    | nil => exact absurd hev he
    | cons d ds =>
      simp only [select_best_types_dep]
      rw [hl]
      exact ⟨_, rfl⟩

/-- C10: `select_best_types_dep` on a non-empty candidate list terminates
normally (its emptiness assertion never fires) and returns an element of
the list; and `resolve_declaration_file_mappings` never reaches the
assertion with an empty list: it either propagates a types-resolution
error or produces a full mapping. -/
theorem c10_selection_safe :
    (∀ (g : ModuleGraph) (code : ModuleSpecifier) (d : TypesDependency)
        (ds : List TypesDependency),
      ∃ b, select_best_types_dep g code (d :: ds) = some b ∧ b ∈ d :: ds)
    ∧ (∀ (g : ModuleGraph) (modules : List Module),
        (∃ e, resolve_declaration_file_mappings g modules = .error e)
        ∨ (∃ l, resolve_declaration_file_mappings g modules = .ok (some l))) := by
  constructor
  · intro g code d ds
    exact ⟨select_fold g code d ds, rfl, select_fold_mem g code ds d⟩
  · intro g modules
    unfold resolve_declaration_file_mappings
    cases hfill : fill_all_types modules [] with
    | error e => exact Or.inl ⟨e, rfl⟩
    | ok td =>
      obtain ⟨l, hl⟩ := resolve_all_entries_some g td
        (fill_all_nonempty modules [] td (by simp) hfill)
      refine Or.inr ⟨l, ?_⟩
      show Except.ok (resolve_all_entries g td) = Except.ok (some l)
      rw [hl]

end Dnt
